import Mathlib

/-!
Shallow embedding of the differential terminal renderer of the `plansi`
repository, together with proofs checking the natural-language
specification against it.

The embedding covers:
* `src/plansi/perceptual.py` — RGB→LAB conversion, perceptual color
  distance, color extraction/quantization and the visual-difference score;
* `src/plansi/style.py` — style value equality and the 3-case style
  diffing policy (`equal`, `equal_color`, `to_ansi`, `diff`);
* `src/plansi/terminal_render.py` — the cell-change classifier
  (`_cells_different`), cursor-movement generation
  (`_generate_cursor_movement`) and the differential emission loop of
  `render_differential`, with the renderer's mutable state
  (`current_cursor_x/y`, `current_style`, primary buffer) passed
  explicitly.

Python floats are embedded as exact real numbers (`ℝ`); the threshold
configuration value is a rational (`ℚ`), which injects into `ℝ` for the
comparison the code performs.  ANSI escape-sequence constants from
`control_codes.py` are embedded as constructors of the `StyleOp` / `Tok`
types, and string concatenation as list append; an interpreter
(`applyToks`) gives the emitted units their standard terminal semantics
for the round-trip theorem.
-/

/-! ## Data model

A bittty color object is `none` (no color set) or carries a `value`
payload, which for truecolor cells is a 3-element RGB list.  The source
code also handles degenerate payloads (empty / non-length-3 values), so
the payload is kept as a `List ℕ`.  A bittty `Style` carries two colors
and seven boolean attributes; Python `==` on these objects is value
equality, embedded as structural equality.  A cell is a `(Style, char)`
pair. -/

abbrev Color := Option (List ℕ)

structure Style where
  fg : Color
  bg : Color
  bold : Bool
  dim : Bool
  italic : Bool
  underline : Bool
  blink : Bool
  strike : Bool
  reverse : Bool
deriving DecidableEq

abbrev Cell := Style × Char

/-- The all-defaults style: no colors, all attributes off. -/
def defaultStyle : Style :=
  ⟨none, none, false, false, false, false, false, false, false⟩

/-- A color payload is well formed when it is absent or a 3-element RGB
list, the only shapes the upstream renderer produces. -/
def wfColor : Color → Bool
  | none => true
  | some [_, _, _] => true
  | some _ => false

/-- Both colors of the style are well formed. -/
def wfStyle (s : Style) : Bool :=
  wfColor s.fg && wfColor s.bg

/-! ## `perceptual.py` -/

/-- `perceptual.rgb_to_lab`, gamma correction step: `c / 12.92` below the
sRGB toe, else `((c + 0.055) / 1.055) ** 2.4`. -/
noncomputable def gammaCorrect (c : ℝ) : ℝ :=
  if c ≤ 0.04045 then c / 12.92 else ((c + 0.055) / 1.055) ^ (2.4 : ℝ)

/-- `perceptual.rgb_to_lab`, XYZ→LAB nonlinearity: cube root above the
CIE threshold, else the linear ramp `7.787 * t + 16 / 116`. -/
noncomputable def xyzToLabComponent (t : ℝ) : ℝ :=
  if t > 0.008856 then t ^ ((1 : ℝ) / 3) else 7.787 * t + 16 / 116

/-- `perceptual.rgb_to_lab`: normalize to `[0,1]`, gamma-correct, sRGB
matrix to XYZ, divide by the D65 white point, then the LAB transform. -/
noncomputable def rgb_to_lab (rgb : ℕ × ℕ × ℕ) : ℝ × ℝ × ℝ :=
  let r := gammaCorrect ((rgb.1 : ℝ) / 255)
  let g := gammaCorrect ((rgb.2.1 : ℝ) / 255)
  let b := gammaCorrect ((rgb.2.2 : ℝ) / 255)
  let x := (r * 0.4124564 + g * 0.3575761 + b * 0.1804375) / 0.95047
  let y := (r * 0.2126729 + g * 0.7151522 + b * 0.0721750) / 1.00000
  let z := (r * 0.0193339 + g * 0.1191920 + b * 0.9503041) / 1.08883
  let fx := xyzToLabComponent x
  let fy := xyzToLabComponent y
  let fz := xyzToLabComponent z
  (116 * fy - 16, 500 * (fx - fy), 200 * (fy - fz))

/-- `perceptual.color_distance`: Delta-E CIE76, the Euclidean distance
between the two LAB triples. -/
noncomputable def color_distance (color1 color2 : ℕ × ℕ × ℕ) : ℝ :=
  let lab1 := rgb_to_lab color1
  let lab2 := rgb_to_lab color2
  Real.sqrt ((lab1.1 - lab2.1) ^ 2 + (lab1.2.1 - lab2.2.1) ^ 2 +
    (lab1.2.2 - lab2.2.2) ^ 2)

/-- `perceptual.quantize_rgb`: drop to 5 bits per channel
(`c // 8 * 8`). -/
def quantize_rgb (color : ℕ × ℕ × ℕ) : ℕ × ℕ × ℕ :=
  (color.1 / 8 * 8, color.2.1 / 8 * 8, color.2.2 / 8 * 8)

/-- `perceptual.extract_rgb_color`: a missing color object, a falsy
value, or a value that is not a 3-element list all default to black
`(0,0,0)`; a proper RGB value is quantized. -/
def extract_rgb_color : Color → ℕ × ℕ × ℕ
  | some [r, g, b] => quantize_rgb (r, g, b)
  | _ => (0, 0, 0)

/-- `perceptual.contrast`: LAB distance between a cell's own fg and bg. -/
noncomputable def contrast (fg_color bg_color : ℕ × ℕ × ℕ) : ℝ :=
  color_distance fg_color bg_color

/-- The effective (foreground, background) pair of a style: extracted
colors, swapped when `reverse` is set — the per-cell swap performed by
`perceptual.visual_difference`. -/
def effColors (s : Style) : (ℕ × ℕ × ℕ) × (ℕ × ℕ × ℕ) :=
  if s.reverse then (extract_rgb_color s.bg, extract_rgb_color s.fg)
  else (extract_rgb_color s.fg, extract_rgb_color s.bg)

/-- `perceptual.visual_difference`: early exit to `0` when glyphs,
`reverse` flags and both raw colors coincide; otherwise the average of
the two normalized (÷200), clamped (≤1) effective color distances,
scaled to a 0–100 percentage. -/
noncomputable def visual_difference (cell1 cell2 : Cell) : ℝ :=
  if cell1.2 = cell2.2 ∧ cell1.1.reverse = cell2.1.reverse ∧
      cell1.1.fg = cell2.1.fg ∧ cell1.1.bg = cell2.1.bg then 0
  else
    let e1 := effColors cell1.1
    let e2 := effColors cell2.1
    let fg_color_diff := min (color_distance e1.1 e2.1 / 200) 1
    let bg_color_diff := min (color_distance e1.2 e2.2 / 200) 1
    (fg_color_diff + bg_color_diff) / 2 * 100

/-- The normalized clamped effective-foreground distance of a cell pair
(the `fg_color_diff` term of `visual_difference`). -/
noncomputable def fgDiffOf (cell1 cell2 : Cell) : ℝ :=
  min (color_distance (effColors cell1.1).1 (effColors cell2.1).1 / 200) 1

/-- The normalized clamped effective-background distance of a cell pair
(the `bg_color_diff` term of `visual_difference`). -/
noncomputable def bgDiffOf (cell1 cell2 : Cell) : ℝ :=
  min (color_distance (effColors cell1.1).2 (effColors cell2.1).2 / 200) 1

/-! ## `style.py` -/

/-- `style.equal_color`: both absent ⇒ equal; one absent ⇒ unequal;
falsy values compare by joint falsiness; otherwise payloads compare by
value. -/
def equal_color : Color → Color → Bool
  | none, none => true
  | none, some _ => false
  | some _, none => false
  | some v1, some v2 =>
    if v1 = [] ∨ v2 = [] then decide (v1 = [] ∧ v2 = [])
    else decide (v1 = v2)

/-- The 7-attribute disequality test shared by `style.equal` and
`style.diff` (same seven attributes, same order). -/
def attrsDiffer (s1 s2 : Style) : Bool :=
  s1.bold != s2.bold || s1.dim != s2.dim || s1.italic != s2.italic ||
  s1.underline != s2.underline || s1.blink != s2.blink ||
  s1.strike != s2.strike || s1.reverse != s2.reverse

/-- `style.equal`: value equality — all seven attributes plus both
colors. -/
def equal (style1 style2 : Style) : Bool :=
  if attrsDiffer style1 style2 then false
  else equal_color style1.fg style2.fg && equal_color style1.bg style2.bg

/-- One emitted style unit: an escape constant from `control_codes.py`
(with its arguments, for the truecolor codes). -/
inductive StyleOp where
  | reset
  | setFg (r g b : ℕ)
  | setBg (r g b : ℕ)
  | resetFg
  | resetBg
  | bold
  | dim
  | italic
  | underline
  | blink
  | reverse
  | strike
deriving DecidableEq

/-- The foreground part of `style.to_ansi`: a truecolor code iff the
color object is present, truthy and a 3-element value. -/
def fgOps : Color → List StyleOp
  | some [r, g, b] => [.setFg r g b]
  | _ => []

/-- The background part of `style.to_ansi`. -/
def bgOps : Color → List StyleOp
  | some [r, g, b] => [.setBg r g b]
  | _ => []

/-- The attribute part of `style.to_ansi`, in the source's emission
order (bold, reverse, dim, italic, underline, blink, strike). -/
def attrOps (s : Style) : List StyleOp :=
  (if s.bold then [StyleOp.bold] else []) ++
  (if s.reverse then [StyleOp.reverse] else []) ++
  (if s.dim then [StyleOp.dim] else []) ++
  (if s.italic then [StyleOp.italic] else []) ++
  (if s.underline then [StyleOp.underline] else []) ++
  (if s.blink then [StyleOp.blink] else []) ++
  (if s.strike then [StyleOp.strike] else [])

/-- The rebuild body of `style.to_ansi` after the leading reset. -/
def styleBodyOps (s : Style) : List StyleOp :=
  fgOps s.fg ++ bgOps s.bg ++ attrOps s

/-- `style.to_ansi`: full style sequence — reset, colors, then all set
attributes. -/
def to_ansi (s : Style) : List StyleOp :=
  StyleOp.reset :: styleBodyOps s

/-- The foreground half of case 3 of `style.diff`: nothing when the
foregrounds are equal, a truecolor code when the new foreground is a
proper value, the default-foreground reset otherwise. -/
def fgChangeOps (current_style new_style : Style) : List StyleOp :=
  if equal_color current_style.fg new_style.fg then []
  else match new_style.fg with
    | some [r, g, b] => [.setFg r g b]
    | _ => [.resetFg]

/-- The background half of case 3 of `style.diff`. -/
def bgChangeOps (current_style new_style : Style) : List StyleOp :=
  if equal_color current_style.bg new_style.bg then []
  else match new_style.bg with
    | some [r, g, b] => [.setBg r g b]
    | _ => [.resetBg]

/-- `style.diff`: with caching disabled (or no previous style) always
the full rebuild; otherwise nothing / full rebuild / color-only parts
according to the 3-case policy. -/
def diff (current_style : Option Style) (new_style : Style)
    (cache_style : Bool) : List StyleOp :=
  if !cache_style then to_ansi new_style
  else match current_style with
    | none => to_ansi new_style
    | some c =>
      if equal c new_style then []
      else if attrsDiffer c new_style then to_ansi new_style
      else fgChangeOps c new_style ++ bgChangeOps c new_style

/-! ## `terminal_render.py` -/

/-- `TerminalRenderer._cells_different`: at threshold 0 a fast exact
comparison of glyph and style; otherwise the perceptual score compared
strictly against the threshold. -/
noncomputable def cellsDifferent (color_threshold : ℚ)
    (main_cell alt_cell : Cell) : Bool :=
  if color_threshold = 0 then
    !(decide (main_cell.2 = alt_cell.2) && decide (main_cell.1 = alt_cell.1))
  else
    decide ((color_threshold : ℝ) < visual_difference main_cell alt_cell)

/-- One emitted output unit: a cursor-position command (1-indexed, as in
`MOVE_CURSOR`), a style unit, or a literal glyph. -/
inductive Tok where
  | move (row col : ℕ)
  | op (o : StyleOp)
  | ch (c : Char)
deriving DecidableEq

/-- `TerminalRenderer._generate_cursor_movement`, on the renderer's
tracked cursor `(x, y)` and a target `(col, row)`:  with caching
disabled always the absolute command; with caching enabled nothing when
already at the target or when the target column is exactly
`current_x + 1` on the same row, else the absolute command. -/
def generateCursorMovement (cache_position : Bool) (x y col row : ℕ) :
    List Tok :=
  if !cache_position then [Tok.move (row + 1) (col + 1)]
  else if x = col ∧ y = row then []
  else if col = x + 1 ∧ row = y then []
  else [Tok.move (row + 1) (col + 1)]

/-- A frame buffer, indexed as `grid col row`. -/
abbrev Grid := ℕ → ℕ → Cell

/-- Pointwise cell update (`buffer.set_cell`). -/
def setCell (g : Grid) (x y : ℕ) (c : Cell) : Grid :=
  fun i j => if i = x ∧ j = y then c else g i j

/-- The renderer's per-frame emission state: tracked cursor, tracked
style, and the primary buffer being brought up to date. -/
structure EmitState where
  x : ℕ
  y : ℕ
  cur : Option Style
  buf : Grid

/-- The row-major changed-cell scan of `render_differential` (rows
outer, columns inner).  The source then sorts by `(row, col)`, which on
this row-major-generated list is the identity. -/
noncomputable def changedPositions (width height : ℕ) (thr : ℚ)
    (prev curr : Grid) : List (ℕ × ℕ) :=
  ((List.range height).map fun row =>
    (List.range width).filterMap fun col =>
      if cellsDifferent thr (prev col row) (curr col row) then
        some (col, row)
      else none).flatten

/-- The per-changed-cell body of the emission loop of
`render_differential`: cursor movement, style changes, the glyph, then
the state update (`current_style := alt_style`,
`current_cursor := (col+1, row)`, primary-buffer write). -/
noncomputable def emitCell (cache_position cache_style : Bool) (alt : Grid)
    (st : EmitState) (pos : ℕ × ℕ) : List Tok × EmitState :=
  let col := pos.1
  let row := pos.2
  let cell := alt col row
  (generateCursorMovement cache_position st.x st.y col row ++
    (diff st.cur cell.1 cache_style).map Tok.op ++ [Tok.ch cell.2],
   ⟨col + 1, row, some cell.1, setCell st.buf col row cell⟩)

/-- The emission loop of `render_differential` over the changed-cell
list. -/
noncomputable def emitLoop (cache_position cache_style : Bool) (alt : Grid) :
    EmitState → List (ℕ × ℕ) → List Tok × EmitState
  | st, [] => ([], st)
  | st, pos :: rest =>
    let r := emitCell cache_position cache_style alt st pos
    let r2 := emitLoop cache_position cache_style alt r.2 rest
    (r.1 ++ r2.1, r2.2)

/-- `TerminalRenderer.render_differential`, after the alt buffer has
been parsed: diff the buffers, return immediately when nothing changed,
else reset the tracked cursor to `(0,0)` and the tracked style to
`None` and run the emission loop.  Returns the emitted units, the
changed-cell count, and the final emission state (the source keeps the
state in `self` and mutates the primary buffer in place). -/
noncomputable def renderDifferential (width height : ℕ) (thr : ℚ)
    (cache_position cache_style : Bool) (prev curr : Grid) :
    List Tok × ℕ × EmitState :=
  let changed := changedPositions width height thr prev curr
  if changed = [] then ([], 0, ⟨0, 0, none, prev⟩)
  else
    let r := emitLoop cache_position cache_style curr ⟨0, 0, none, prev⟩ changed
    (r.1, changed.length, r.2)

/-! ## Interpreter for the emitted units

Standard terminal semantics for the three unit kinds: an absolute
1-indexed cursor-position command, a style unit acting on the active
style, and a glyph written at the cursor with the active style, the
cursor advancing one column. -/

/-- Effect of one style unit on the active style. -/
def applyOp (s : Style) : StyleOp → Style
  | .reset => defaultStyle
  | .setFg r g b => { s with fg := some [r, g, b] }
  | .setBg r g b => { s with bg := some [r, g, b] }
  | .resetFg => { s with fg := none }
  | .resetBg => { s with bg := none }
  | .bold => { s with bold := true }
  | .dim => { s with dim := true }
  | .italic => { s with italic := true }
  | .underline => { s with underline := true }
  | .blink => { s with blink := true }
  | .reverse => { s with reverse := true }
  | .strike => { s with strike := true }

/-- Fold of style units over the active style. -/
def applyOps (s : Style) (l : List StyleOp) : Style :=
  l.foldl applyOp s

/-- The interpreting terminal's state: cell grid, cursor, active
style. -/
structure TermState where
  grid : Grid
  x : ℕ
  y : ℕ
  sty : Style

/-- Effect of one emitted unit on the terminal. -/
def applyTok (t : TermState) : Tok → TermState
  | .move row col => { t with x := col - 1, y := row - 1 }
  | .op o => { t with sty := applyOp t.sty o }
  | .ch c => { t with grid := setCell t.grid t.x t.y (t.sty, c), x := t.x + 1 }

/-- Fold of emitted units over the terminal. -/
def applyToks (t : TermState) (l : List Tok) : TermState :=
  l.foldl applyTok t

/-- Number of cursor-position commands in an emitted stream. -/
def moveCount (l : List Tok) : ℕ :=
  (l.filter fun t => match t with | .move _ _ => true | _ => false).length

/-! ## Concrete cells and frames used in witnesses and counterexamples -/

/-- A default-styled cell showing `A`. -/
def cellA : Cell := (defaultStyle, 'A')

/-- A default-styled cell showing `B`. -/
def cellB : Cell := (defaultStyle, 'B')

/-- A cell with no colors set. -/
def cellNoFg : Cell := (defaultStyle, 'x')

/-- The same cell but with an explicit black foreground. -/
def cellBlackFg : Cell := ({ defaultStyle with fg := some [0, 0, 0] }, 'x')

/-- A default style with a red foreground. -/
def redStyle : Style := { defaultStyle with fg := some [255, 0, 0] }

/-- A frame of default-styled blanks. -/
def prevBlank : Grid := fun _ _ => (defaultStyle, ' ')

/-- A frame showing `A` everywhere. -/
def currOneA : Grid := fun _ _ => (defaultStyle, 'A')

/-- A frame showing `A` in column 0 and `B` elsewhere. -/
def currAB : Grid := fun col _ => if col = 0 then (defaultStyle, 'A') else (defaultStyle, 'B')

/-- A frame of `cellA` cells. -/
def prevConstA : Grid := fun _ _ => cellA

/-- A frame of `cellB` cells. -/
def currConstB : Grid := fun _ _ => cellB

/-- Replace the six text attributes of a style other than `reverse`
(bold, dim, italic, underline, blink, strike), keeping glyph-relevant
state (colors, `reverse`) fixed. -/
def withAttrs (s : Style) (b1 b2 b3 b4 b5 b6 : Bool) : Style :=
  { s with bold := b1, dim := b2, italic := b3, underline := b4,
           blink := b5, strike := b6 }

/-! ## Helper lemmas -/

/-- `style.equal_color` is exactly structural equality of the embedded
color values. -/
theorem equal_color_iff (c1 c2 : Color) : equal_color c1 c2 = true ↔ c1 = c2 := by
  cases c1 with
  | none => cases c2 <;> simp [equal_color]
  | some v1 =>
    cases c2 with
    | none => simp [equal_color]
    | some v2 =>
      by_cases h : v1 = [] ∨ v2 = []
      · rcases h with h | h <;> subst h <;> simp [equal_color, eq_comm]
      · push_neg at h
        simp [equal_color, h.1, h.2]

theorem attrsDiffer_eq_false_iff (s1 s2 : Style) :
    attrsDiffer s1 s2 = false ↔
      s1.bold = s2.bold ∧ s1.dim = s2.dim ∧ s1.italic = s2.italic ∧
      s1.underline = s2.underline ∧ s1.blink = s2.blink ∧
      s1.strike = s2.strike ∧ s1.reverse = s2.reverse := by
  simp [attrsDiffer, and_assoc]

theorem attrsDiffer_self (s : Style) : attrsDiffer s s = false := by
  simp [attrsDiffer]

/-- `style.equal` is exactly structural equality of styles. -/
theorem equal_iff (s1 s2 : Style) : equal s1 s2 = true ↔ s1 = s2 := by
  constructor
  · intro h
    rw [equal] at h
    split at h
    · exact absurd h (by simp)
    · rename_i hattr
      rw [Bool.and_eq_true, equal_color_iff, equal_color_iff] at h
      have ha := (attrsDiffer_eq_false_iff s1 s2).mp (by
        cases hb : attrsDiffer s1 s2
        · rfl
        · exact absurd hb hattr)
      cases s1; cases s2
      simp_all
  · rintro rfl
    rw [equal, if_neg (by simp [attrsDiffer_self])]
    simp [equal_color_iff]

theorem color_distance_self (c : ℕ × ℕ × ℕ) : color_distance c c = 0 := by
  simp [color_distance]

theorem wfColor_cases (c : Color) (h : wfColor c = true) :
    c = none ∨ ∃ r g b, c = some [r, g, b] := by
  match c with
  | none => exact Or.inl rfl
  | some [r, g, b] => exact Or.inr ⟨r, g, b, rfl⟩
  | some [] | some [_] | some [_, _] | some (_ :: _ :: _ :: _ :: _) =>
    simp [wfColor] at h

theorem applyOps_append (s : Style) (l1 l2 : List StyleOp) :
    applyOps s (l1 ++ l2) = applyOps (applyOps s l1) l2 :=
  List.foldl_append ..

/-- Applying the full rebuild of `style.to_ansi` to any active style
yields exactly the target style, for well-formed target colors. -/
theorem applyOps_to_ansi (t : Style) (h : wfStyle t = true) (s : Style) :
    applyOps s (to_ansi t) = t := by
  obtain ⟨tf, tb, b1, b2, b3, b4, b5, b6, b7⟩ := t
  rw [wfStyle, Bool.and_eq_true] at h
  rcases wfColor_cases _ h.1 with hf | ⟨r1, g1, c1, hf⟩ <;>
    rcases wfColor_cases _ h.2 with hb | ⟨r2, g2, c2, hb⟩ <;>
    simp only at hf hb <;> subst hf hb <;>
    cases b1 <;> cases b2 <;> cases b3 <;> cases b4 <;> cases b5 <;>
    cases b6 <;> cases b7 <;> rfl

/-- Applying the foreground half of case 3 of `style.diff` rewrites the
foreground to the target's, for well-formed target colors. -/
theorem fgChange_apply (c t : Style) (hwf : wfStyle t = true) (s : Style)
    (hs : s.fg = c.fg) : applyOps s (fgChangeOps c t) = { s with fg := t.fg } := by
  rw [fgChangeOps]
  split
  · rename_i he
    rw [equal_color_iff] at he
    have hts : t.fg = s.fg := by rw [hs, he]
    rw [hts]
    rfl
  · rcases wfColor_cases t.fg (by rw [wfStyle, Bool.and_eq_true] at hwf; exact hwf.1)
      with hf | ⟨r, g, b, hf⟩ <;> rw [hf] <;> rfl

/-- Applying the background half of case 3 of `style.diff` rewrites the
background to the target's, for well-formed target colors. -/
theorem bgChange_apply (c t : Style) (hwf : wfStyle t = true) (s : Style)
    (hs : s.bg = c.bg) : applyOps s (bgChangeOps c t) = { s with bg := t.bg } := by
  rw [bgChangeOps]
  split
  · rename_i he
    rw [equal_color_iff] at he
    have hts : t.bg = s.bg := by rw [hs, he]
    rw [hts]
    rfl
  · rcases wfColor_cases t.bg (by rw [wfStyle, Bool.and_eq_true] at hwf; exact hwf.2)
      with hf | ⟨r, g, b, hf⟩ <;> rw [hf] <;> rfl

/-- Applying the output of `style.diff` to a terminal whose active style
matches the tracked style (or whose tracked style is still unset) puts
the terminal in exactly the target style, for well-formed target
colors. -/
theorem applyOps_diff (cur : Option Style) (t : Style) (cache_style : Bool)
    (hwf : wfStyle t = true) (s : Style)
    (hcur : cur = none ∨ cur = some s) :
    applyOps s (diff cur t cache_style) = t := by
  cases cache_style with
  | false =>
    have hd : diff cur t false = to_ansi t := rfl
    rw [hd]; exact applyOps_to_ansi t hwf s
  | true =>
    rcases hcur with rfl | rfl
    · have hd : diff none t true = to_ansi t := rfl
      rw [hd]; exact applyOps_to_ansi t hwf s
    · have hd : diff (some s) t true =
        (if equal s t then [] else if attrsDiffer s t then to_ansi t
         else fgChangeOps s t ++ bgChangeOps s t) := rfl
      rw [hd]
      by_cases he : equal s t = true
      · rw [if_pos he, equal_iff] at *
        subst he; rfl
      · rw [if_neg he]
        by_cases ha : attrsDiffer s t = true
        · rw [if_pos ha]; exact applyOps_to_ansi t hwf s
        · rw [if_neg ha, applyOps_append,
            fgChange_apply s t hwf s rfl,
            bgChange_apply s t hwf { s with fg := t.fg } rfl]
          have h7 := (attrsDiffer_eq_false_iff s t).mp (by
            cases hb : attrsDiffer s t
            · rfl
            · exact absurd hb ha)
          obtain ⟨sf, sb, p1, p2, p3, p4, p5, p6, p7⟩ := s
          obtain ⟨tf2, tb2, q1, q2, q3, q4, q5, q6, q7⟩ := t
          simp only at h7
          obtain ⟨e1, e2, e3, e4, e5, e6, e7⟩ := h7
          subst e1 e2 e3 e4 e5 e6 e7
          rfl

theorem applyToks_append (t : TermState) (l1 l2 : List Tok) :
    applyToks t (l1 ++ l2) = applyToks (applyToks t l1) l2 :=
  List.foldl_append ..

theorem applyToks_ops (t : TermState) (l : List StyleOp) :
    applyToks t (l.map Tok.op) = { t with sty := applyOps t.sty l } := by
  induction l generalizing t with
  | nil => rfl
  | cons o rest ih =>
    rw [List.map_cons]
    show applyToks (applyTok t (.op o)) (rest.map Tok.op) = _
    rw [ih]
    rfl

/-- Emitting one changed cell and interpreting its units: the glyph is
written at the target position with the target style, and the terminal's
cursor lands one column to the right, matching the tracked state. -/
theorem applyToks_emitCell (cache_style : Bool) (alt : Grid)
    (st : EmitState) (ts : TermState) (col row : ℕ)
    (hwf : wfStyle (alt col row).1 = true)
    (hcur : st.cur = none ∨ st.cur = some ts.sty) :
    applyToks ts (emitCell false cache_style alt st (col, row)).1 =
      ⟨setCell ts.grid col row (alt col row), col + 1, row, (alt col row).1⟩ := by
  show applyToks ts
    ([Tok.move (row + 1) (col + 1)] ++
      (diff st.cur (alt col row).1 cache_style).map Tok.op ++
      [Tok.ch (alt col row).2]) = _
  rw [applyToks_append, applyToks_append]
  have h1 : applyToks ts [Tok.move (row + 1) (col + 1)] =
      { ts with x := col, y := row } := by
    show applyTok ts (.move (row + 1) (col + 1)) = _
    rw [applyTok]
    simp
  rw [h1, applyToks_ops, applyOps_diff st.cur (alt col row).1 cache_style hwf _ hcur]
  show applyTok _ (.ch (alt col row).2) = _
  rw [applyTok]

theorem emitLoop_nil (cP cS : Bool) (alt : Grid) (st : EmitState) :
    emitLoop cP cS alt st [] = ([], st) := rfl

theorem emitLoop_cons (cP cS : Bool) (alt : Grid) (st : EmitState)
    (p : ℕ × ℕ) (rest : List (ℕ × ℕ)) :
    emitLoop cP cS alt st (p :: rest) =
      ((emitCell cP cS alt st p).1 ++
        (emitLoop cP cS alt (emitCell cP cS alt st p).2 rest).1,
       (emitLoop cP cS alt (emitCell cP cS alt st p).2 rest).2) := rfl

/-- The primary buffer after the emission loop: changed positions hold
the alt-buffer cell, the rest are untouched. -/
theorem emitLoop_buf (cP cS : Bool) (alt : Grid) (l : List (ℕ × ℕ)) :
    ∀ (st : EmitState) (col row : ℕ),
      (emitLoop cP cS alt st l).2.buf col row =
        if (col, row) ∈ l then alt col row else st.buf col row := by
  induction l with
  | nil => intro st col row; rw [emitLoop_nil, if_neg (List.not_mem_nil _)]
  | cons p rest ih =>
    intro st col row
    rw [emitLoop_cons, ih]
    by_cases hmem : (col, row) ∈ rest
    · rw [if_pos hmem, if_pos (List.mem_cons_of_mem _ hmem)]
    · rw [if_neg hmem]
      show setCell st.buf p.1 p.2 (alt p.1 p.2) col row = _
      rw [setCell]
      by_cases hp : (col, row) = p
      · obtain ⟨hc, hr⟩ := Prod.mk.injEq .. ▸ hp
        subst hc; subst hr
        rw [if_pos ⟨rfl, rfl⟩, if_pos (List.mem_cons_self _ _)]
      · have hne : ¬(col = p.1 ∧ row = p.2) := by
          intro ⟨h1, h2⟩
          exact hp (by rw [h1, h2])
        rw [if_neg hne, if_neg (by
          intro hmem2
          rcases List.mem_cons.mp hmem2 with h | h
          · exact hp h
          · exact hmem h)]

/-- The emission-loop invariant: with position caching disabled, the
interpreting terminal's grid tracks the primary buffer and its active
style tracks the renderer's `current_style`. -/
theorem emitLoop_roundtrip (cS : Bool) (alt : Grid) (l : List (ℕ × ℕ)) :
    ∀ (st : EmitState) (ts : TermState),
      (∀ p ∈ l, wfStyle (alt p.1 p.2).1 = true) →
      ts.grid = st.buf →
      (st.cur = none ∨ st.cur = some ts.sty) →
      (applyToks ts (emitLoop false cS alt st l).1).grid =
          (emitLoop false cS alt st l).2.buf ∧
        ((emitLoop false cS alt st l).2.cur = none ∨
          (emitLoop false cS alt st l).2.cur =
            some (applyToks ts (emitLoop false cS alt st l).1).sty) := by
  induction l with
  | nil =>
    intro st ts _ hgrid hcur
    rw [emitLoop_nil]
    exact ⟨hgrid, hcur⟩
  | cons p rest ih =>
    intro st ts hwf hgrid hcur
    obtain ⟨col, row⟩ := p
    rw [emitLoop_cons, applyToks_append,
      applyToks_emitCell cS alt st ts col row
        (hwf _ (List.mem_cons_self _ _)) hcur]
    have hstep := ih (emitCell false cS alt st (col, row)).2
      ⟨setCell ts.grid col row (alt col row), col + 1, row, (alt col row).1⟩
      (fun q hq => hwf q (List.mem_cons_of_mem _ hq))
      (by rw [hgrid]; rfl)
      (Or.inr rfl)
    exact hstep

theorem mem_changedPositions (w h : ℕ) (thr : ℚ) (prev curr : Grid)
    (col row : ℕ) :
    (col, row) ∈ changedPositions w h thr prev curr ↔
      col < w ∧ row < h ∧
        cellsDifferent thr (prev col row) (curr col row) = true := by
  simp only [changedPositions, List.mem_flatten, List.mem_map]
  constructor
  · rintro ⟨l, ⟨row2, hrow2, rfl⟩, hmem⟩
    rw [List.mem_filterMap] at hmem
    obtain ⟨col2, hcol2, hif⟩ := hmem
    rw [List.mem_range] at hrow2 hcol2
    split at hif
    · rename_i hc
      obtain ⟨rfl, rfl⟩ := Prod.mk.injEq .. ▸ Option.some_injective _ hif
      exact ⟨hcol2, hrow2, hc⟩
    · cases hif
  · rintro ⟨hc, hr, hd⟩
    refine ⟨_, ⟨row, List.mem_range.mpr hr, rfl⟩, ?_⟩
    rw [List.mem_filterMap]
    exact ⟨col, List.mem_range.mpr hc, by rw [if_pos hd]⟩

theorem cellsDifferent_zero (c1 c2 : Cell) :
    cellsDifferent 0 c1 c2 =
      !(decide (c1.2 = c2.2) && decide (c1.1 = c2.1)) := rfl

theorem cellsDifferent_zero_eq_false_iff (c1 c2 : Cell) :
    cellsDifferent 0 c1 c2 = false ↔ c1 = c2 := by
  rw [cellsDifferent_zero]
  obtain ⟨s1, g1⟩ := c1
  obtain ⟨s2, g2⟩ := c2
  simp [Prod.ext_iff, and_comm]

theorem effColors_congr (s1 s2 : Style) (hrev : s1.reverse = s2.reverse)
    (hfg : s1.fg = s2.fg) (hbg : s1.bg = s2.bg) :
    effColors s1 = effColors s2 := by
  rw [effColors, effColors, hrev, hfg, hbg]

/-- Shared: a glyph-only change between default-styled cells scores 0. -/
theorem visual_difference_cellA_cellB : visual_difference cellA cellB = 0 := by
  rw [visual_difference, if_neg (by intro h; exact absurd h.1 (by decide))]
  have he : effColors cellA.1 = ((0, 0, 0), (0, 0, 0)) := rfl
  have he2 : effColors cellB.1 = ((0, 0, 0), (0, 0, 0)) := rfl
  rw [he, he2]
  simp only [color_distance_self]
  norm_num

/-- C1 (as stated, refuted): the claimed formula gives any
glyph-changed pair a score of at least 50, but `visual_difference` has
no glyph term: two default-styled cells showing different glyphs score
exactly 0, far below 50. -/
theorem glyph_change_scores_zero :
    visual_difference cellA cellB = 0 ∧ cellA.2 ≠ cellB.2 ∧
      ¬(50 ≤ visual_difference cellA cellB) :=
  ⟨visual_difference_cellA_cellB, by decide,
    by rw [visual_difference_cellA_cellB]; norm_num⟩

/-- C1 (amended): for every pair of cells the visual-difference score
equals `100 × (0.5·fg_diff + 0.5·bg_diff)` where `fg_diff`/`bg_diff`
are the normalized clamped effective color distances; there is no
glyph-weight term and no contrast term. -/
theorem visual_difference_weights (cell1 cell2 : Cell) :
    visual_difference cell1 cell2 =
      100 * (0.5 * fgDiffOf cell1 cell2 + 0.5 * bgDiffOf cell1 cell2) := by
  rw [visual_difference]
  split
  · rename_i hcond
    obtain ⟨hch, hrev, hfg, hbg⟩ := hcond
    have he := effColors_congr cell1.1 cell2.1 hrev hfg hbg
    rw [fgDiffOf, bgDiffOf, he, color_distance_self, color_distance_self]
    norm_num
  · simp only [fgDiffOf, bgDiffOf]
    ring

/-- C3 (as stated, refuted): an absent color compared against a present
black color yields perceptual distance 0 — not the claimed maximal
sentinel 441.67 — and a cell pair differing only in that way scores 0
overall. -/
theorem absent_vs_present_black_distance_zero :
    color_distance (extract_rgb_color none)
        (extract_rgb_color (some [0, 0, 0])) = 0 ∧
    color_distance (extract_rgb_color none)
        (extract_rgb_color (some [0, 0, 0])) ≠ 441.67 ∧
    cellNoFg.1.fg = none ∧ cellBlackFg.1.fg = some [0, 0, 0] ∧
    visual_difference cellNoFg cellBlackFg = 0 := by
  have h1 : color_distance (extract_rgb_color none)
      (extract_rgb_color (some [0, 0, 0])) = 0 := color_distance_self (0, 0, 0)
  refine ⟨h1, by rw [h1]; norm_num, rfl, rfl, ?_⟩
  rw [visual_difference, if_neg (by intro h; exact absurd h.2.2.1 (by decide))]
  have he : effColors cellNoFg.1 = ((0, 0, 0), (0, 0, 0)) := rfl
  have he2 : effColors cellBlackFg.1 = ((0, 0, 0), (0, 0, 0)) := rfl
  rw [he, he2]
  simp only [color_distance_self]
  norm_num

/-- C3 (amended): absent colors are defaulted to black `(0,0,0)` before
comparison — absent-vs-absent compares at distance 0, and
absent-vs-present compares at the LAB distance from black to the
quantized present color (0 when that color is black), never at a fixed
maximal sentinel. -/
theorem missing_color_black_convention :
    extract_rgb_color none = (0, 0, 0) ∧
    (∀ r g b : ℕ, extract_rgb_color (some [r, g, b]) = quantize_rgb (r, g, b)) ∧
    color_distance (extract_rgb_color none) (extract_rgb_color none) = 0 ∧
    (∀ c : Color,
      color_distance (extract_rgb_color none) (extract_rgb_color c) =
        color_distance (0, 0, 0) (extract_rgb_color c)) :=
  ⟨rfl, fun _ _ _ => rfl, color_distance_self _, fun _ => rfl⟩

/-- C9: a cell with `fg = X, bg = Y, reverse = false` scores 0
difference against a cell with `fg = Y, bg = X, reverse = true` and the
same glyph — the effective colors are swapped before comparison. -/
theorem reverse_video_equivalence (g : Char) (X Y : Color)
    (b1 b2 b3 b4 b5 b6 c1 c2 c3 c4 c5 c6 : Bool) :
    visual_difference ((⟨X, Y, b1, b2, b3, b4, b5, b6, false⟩ : Style), g)
      ((⟨Y, X, c1, c2, c3, c4, c5, c6, true⟩ : Style), g) = 0 := by
  rw [visual_difference,
    if_neg (fun h => Bool.false_ne_true (show false = true from h.2.1))]
  have he1 : effColors (⟨X, Y, b1, b2, b3, b4, b5, b6, false⟩ : Style) =
      (extract_rgb_color X, extract_rgb_color Y) := rfl
  have he2 : effColors (⟨Y, X, c1, c2, c3, c4, c5, c6, true⟩ : Style) =
      (extract_rgb_color X, extract_rgb_color Y) := rfl
  rw [he1, he2]
  simp only [color_distance_self]
  norm_num

/-- C10: the visual-difference score never reads the bold, dim, italic,
underline, blink or strike attributes — replacing them on either cell
leaves the score unchanged, and two cells differing only in them score
0 and are classified unchanged at every positive threshold. -/
theorem score_independent_of_text_attributes :
    (∀ (c1 c2 : Cell) (a1 a2 a3 a4 a5 a6 b1 b2 b3 b4 b5 b6 : Bool),
      visual_difference (withAttrs c1.1 a1 a2 a3 a4 a5 a6, c1.2)
          (withAttrs c2.1 b1 b2 b3 b4 b5 b6, c2.2) =
        visual_difference c1 c2) ∧
    (∀ (s : Style) (g : Char) (b1 b2 b3 b4 b5 b6 : Bool) (thr : ℚ),
      0 < thr →
      visual_difference (s, g) (withAttrs s b1 b2 b3 b4 b5 b6, g) = 0 ∧
      cellsDifferent thr (s, g) (withAttrs s b1 b2 b3 b4 b5 b6, g) = false) := by
  constructor
  · intro c1 c2 a1 a2 a3 a4 a5 a6 b1 b2 b3 b4 b5 b6
    rfl
  · intro s g b1 b2 b3 b4 b5 b6 thr hthr
    have h0 : visual_difference (s, g) (withAttrs s b1 b2 b3 b4 b5 b6, g) = 0 := by
      rw [visual_difference, if_pos ⟨rfl, rfl, rfl, rfl⟩]
    refine ⟨h0, ?_⟩
    rw [cellsDifferent, if_neg hthr.ne']
    apply decide_eq_false
    rw [h0]
    intro hlt
    have hpos : (0 : ℝ) < (thr : ℝ) := by exact_mod_cast hthr
    linarith

/-- Witness for C10 at a concrete style, glyph and threshold. -/
theorem score_independent_of_text_attributes_witness :
    visual_difference (defaultStyle, 'A')
        (withAttrs defaultStyle true true true true true true, 'A') = 0 ∧
    cellsDifferent 5 (defaultStyle, 'A')
        (withAttrs defaultStyle true true true true true true, 'A') = false :=
  score_independent_of_text_attributes.2 defaultStyle 'A'
    true true true true true true 5 (by norm_num)

/-- C4: in exact mode (threshold 0) a cell is classified as changed iff
the glyphs differ or the styles differ by value (`style.equal`, i.e.
all seven attributes plus both colors); the perceptual score is not
consulted on this fast path. -/
theorem exact_mode_change_iff (main_cell alt_cell : Cell) :
    cellsDifferent 0 main_cell alt_cell = true ↔
      main_cell.2 ≠ alt_cell.2 ∨ equal main_cell.1 alt_cell.1 = false := by
  rw [cellsDifferent_zero]
  have h2 : equal main_cell.1 alt_cell.1 = false ↔ ¬main_cell.1 = alt_cell.1 := by
    rw [Bool.eq_false_iff, Ne, equal_iff]
  rw [h2]
  simp [Decidable.not_and_iff_or_not]

/-- C5: in perceptual mode (any positive threshold up to 100) a cell is
classified as changed iff its visual-difference score strictly exceeds
the threshold; a score equal to the threshold stays unchanged. -/
theorem perceptual_mode_strict_threshold (thr : ℚ)
    (main_cell alt_cell : Cell) (h0 : 0 < thr) (_h100 : thr ≤ 100) :
    cellsDifferent thr main_cell alt_cell = true ↔
      visual_difference main_cell alt_cell > (thr : ℝ) := by
  rw [cellsDifferent, if_neg h0.ne']
  exact decide_eq_true_iff

/-- Witness for C5 at threshold 50 and a concrete cell pair. -/
theorem perceptual_mode_strict_threshold_witness :
    cellsDifferent 50 cellA cellB = true ↔
      visual_difference cellA cellB > ((50 : ℚ) : ℝ) :=
  perceptual_mode_strict_threshold 50 cellA cellB (by norm_num) (by norm_num)

/-- C8: the 3-case style-change policy of `style.diff` — nothing when
the styles are value-equal, a full reset-then-rebuild when any of the
seven attributes differ, only the changed color channel(s) otherwise
(truecolor escape for a present RGB color, channel default-reset for an
absent one); with style caching disabled the full rebuild is emitted
unconditionally. -/
theorem style_diff_policy (s1 s2 : Style) :
    (diff (some s1) s2 false = StyleOp.reset :: styleBodyOps s2) ∧
    (diff none s2 true = StyleOp.reset :: styleBodyOps s2) ∧
    (equal s1 s2 = true → diff (some s1) s2 true = []) ∧
    (attrsDiffer s1 s2 = true →
      diff (some s1) s2 true = StyleOp.reset :: styleBodyOps s2) ∧
    (equal s1 s2 = false → attrsDiffer s1 s2 = false →
      diff (some s1) s2 true = fgChangeOps s1 s2 ++ bgChangeOps s1 s2) ∧
    (equal_color s1.fg s2.fg = true → fgChangeOps s1 s2 = []) ∧
    (equal_color s1.fg s2.fg = false → ∀ r g b, s2.fg = some [r, g, b] →
      fgChangeOps s1 s2 = [StyleOp.setFg r g b]) ∧
    (equal_color s1.fg s2.fg = false → s2.fg = none →
      fgChangeOps s1 s2 = [StyleOp.resetFg]) ∧
    (equal_color s1.bg s2.bg = true → bgChangeOps s1 s2 = []) ∧
    (equal_color s1.bg s2.bg = false → ∀ r g b, s2.bg = some [r, g, b] →
      bgChangeOps s1 s2 = [StyleOp.setBg r g b]) ∧
    (equal_color s1.bg s2.bg = false → s2.bg = none →
      bgChangeOps s1 s2 = [StyleOp.resetBg]) := by
  have hd : diff (some s1) s2 true =
      (if equal s1 s2 then [] else if attrsDiffer s1 s2 then to_ansi s2
       else fgChangeOps s1 s2 ++ bgChangeOps s1 s2) := rfl
  refine ⟨rfl, rfl, ?_, ?_, ?_, ?_, ?_, ?_, ?_, ?_, ?_⟩
  · intro he
    rw [hd, if_pos he]
  · intro ha
    have he : equal s1 s2 = false := by rw [equal, if_pos ha]
    rw [hd, he]
    simp only [Bool.false_eq_true, if_false, if_pos ha]
    rfl
  · intro he ha
    rw [hd, he, ha]
    simp only [Bool.false_eq_true, if_false]
  · intro hc
    rw [fgChangeOps, if_pos hc]
  · intro hc r g b hfg
    rw [fgChangeOps, if_neg (by rw [hc]; exact Bool.false_ne_true), hfg]
  · intro hc hfg
    rw [fgChangeOps, if_neg (by rw [hc]; exact Bool.false_ne_true), hfg]
  · intro hc
    rw [bgChangeOps, if_pos hc]
  · intro hc r g b hbg
    rw [bgChangeOps, if_neg (by rw [hc]; exact Bool.false_ne_true), hbg]
  · intro hc hbg
    rw [bgChangeOps, if_neg (by rw [hc]; exact Bool.false_ne_true), hbg]

/-- Witness for C8: a red-foreground change against the default style
takes the color-only case and emits exactly one truecolor foreground
code. -/
theorem style_diff_policy_witness :
    diff (some defaultStyle) redStyle true =
      fgChangeOps defaultStyle redStyle ++ bgChangeOps defaultStyle redStyle :=
  (style_diff_policy defaultStyle redStyle).2.2.2.2.1 (by decide) (by decide)

/-- C6 (as stated, refuted): emitting the changed cell in the last
column of a 1-wide grid leaves the tracked cursor at `(1, 0)` — one
past the grid — instead of wrapping to column 0 of the next row. -/
theorem no_wrap_after_last_column :
    (renderDifferential 1 1 0 false true prevBlank currOneA).2.2.x = 1 ∧
    (renderDifferential 1 1 0 false true prevBlank currOneA).2.2.y = 0 ∧
    ¬((renderDifferential 1 1 0 false true prevBlank currOneA).2.2.x = 0 ∧
      (renderDifferential 1 1 0 false true prevBlank currOneA).2.2.y = 1) := by
  refine ⟨rfl, rfl, ?_⟩
  intro h
  exact absurd h.1 (by decide)

/-- C6 (amended): after every changed cell at `(col, row)` is emitted,
the tracked style becomes the target style and the tracked cursor
becomes `(col + 1, row)` unconditionally — no wrap to `(0, row + 1)` is
performed, even when `col + 1` reaches the grid width. -/
theorem emit_state_update (cP cS : Bool) (alt : Grid) (st : EmitState)
    (col row : ℕ) :
    (emitCell cP cS alt st (col, row)).2.cur = some (alt col row).1 ∧
    (emitCell cP cS alt st (col, row)).2.x = col + 1 ∧
    (emitCell cP cS alt st (col, row)).2.y = row :=
  ⟨rfl, rfl, rfl⟩

/-- C7 (as stated, refuted): in the scenario of the claim — changed
cells `(0,0)` then `(1,0)`, position caching enabled — the generated
stream contains no cursor-position code at all, not exactly one: the
tracked cursor is reset to `(0,0)` at frame start, so the first cell's
placement is elided too. -/
theorem scenario_c_not_one_move :
    moveCount (renderDifferential 2 1 0 true true prevBlank currAB).1 = 0 ∧
    moveCount (renderDifferential 2 1 0 true true prevBlank currAB).1 ≠ 1 := by
  refine ⟨rfl, ?_⟩
  intro h
  rw [show moveCount (renderDifferential 2 1 0 true true prevBlank currAB).1 = 0
    from rfl] at h
  exact absurd h (by decide)

/-- C7 (amended): the per-cell cursor-placement policy — always an
absolute 1-indexed command with caching disabled; with caching enabled,
nothing when the target equals the tracked cursor, nothing when the
target column is exactly `tracked_x + 1` on the same row, an absolute
command otherwise.  Because the tracked cursor is reset to `(0,0)` at
frame start, sequential changed cells `(0,0)` then `(1,0)` with caching
enabled yield zero cursor-position codes. -/
theorem cursor_movement_policy :
    (∀ x y col row : ℕ, generateCursorMovement false x y col row =
      [Tok.move (row + 1) (col + 1)]) ∧
    (∀ x y col row : ℕ, x = col ∧ y = row →
      generateCursorMovement true x y col row = []) ∧
    (∀ x y col row : ℕ, col = x + 1 ∧ row = y →
      generateCursorMovement true x y col row = []) ∧
    (∀ x y col row : ℕ, ¬(x = col ∧ y = row) → ¬(col = x + 1 ∧ row = y) →
      generateCursorMovement true x y col row = [Tok.move (row + 1) (col + 1)]) ∧
    moveCount (renderDifferential 2 1 0 true true prevBlank currAB).1 = 0 := by
  have hd : ∀ x y col row : ℕ, generateCursorMovement true x y col row =
      (if x = col ∧ y = row then [] else if col = x + 1 ∧ row = y then []
       else [Tok.move (row + 1) (col + 1)]) := fun _ _ _ _ => rfl
  refine ⟨fun _ _ _ _ => rfl, ?_, ?_, ?_, rfl⟩
  · intro x y col row h
    rw [hd, if_pos h]
  · intro x y col row h
    rw [hd]
    by_cases h1 : x = col ∧ y = row
    · rw [if_pos h1]
    · rw [if_neg h1, if_pos h]
  · intro x y col row h1 h2
    rw [hd, if_neg h1, if_neg h2]

/-- Witness for C7's policy at a concrete tracked cursor and target. -/
theorem cursor_movement_policy_witness :
    generateCursorMovement true 3 2 3 2 = [] :=
  cursor_movement_policy.2.1 3 2 3 2 ⟨rfl, rfl⟩

/-- C2 (amended): in exact mode (threshold 0) with position caching
disabled (the renderer's default), applying the emitted unit stream to
a terminal holding the previous frame — cursor at home, default active
style — reproduces the current frame exactly, for any matching
dimensions, any style-caching setting, and well-formed current-frame
colors. -/
theorem render_roundtrip_exact (w h : ℕ) (cache_style : Bool)
    (prev curr : Grid)
    (hwf : ∀ col row, col < w → row < h → wfStyle (curr col row).1 = true) :
    ∀ col row, col < w → row < h →
      (applyToks ⟨prev, 0, 0, defaultStyle⟩
          (renderDifferential w h 0 false cache_style prev curr).1).grid
          col row =
        curr col row := by
  intro col row hc hr
  have hsame : ∀ c r : ℕ, c < w → r < h →
      (c, r) ∉ changedPositions w h 0 prev curr → prev c r = curr c r := by
    intro c r hcw hrh hnm
    have hnot : ¬cellsDifferent 0 (prev c r) (curr c r) = true := fun hd2 =>
      hnm ((mem_changedPositions w h 0 prev curr c r).mpr ⟨hcw, hrh, hd2⟩)
    exact (cellsDifferent_zero_eq_false_iff _ _).mp (Bool.eq_false_iff.mpr hnot)
  have hdef : renderDifferential w h 0 false cache_style prev curr =
      (if changedPositions w h 0 prev curr = [] then
        ([], 0, (⟨0, 0, none, prev⟩ : EmitState))
       else
        ((emitLoop false cache_style curr ⟨0, 0, none, prev⟩
            (changedPositions w h 0 prev curr)).1,
         (changedPositions w h 0 prev curr).length,
         (emitLoop false cache_style curr ⟨0, 0, none, prev⟩
            (changedPositions w h 0 prev curr)).2)) := rfl
  by_cases hch : changedPositions w h 0 prev curr = []
  · rw [hdef, if_pos hch]
    show prev col row = curr col row
    exact hsame col row hc hr (by rw [hch]; exact List.not_mem_nil _)
  · rw [hdef, if_neg hch]
    have hrt := emitLoop_roundtrip cache_style curr
      (changedPositions w h 0 prev curr)
      ⟨0, 0, none, prev⟩ ⟨prev, 0, 0, defaultStyle⟩
      (fun p hp => by
        obtain ⟨pc, pr⟩ := p
        obtain ⟨hpw, hph, _⟩ :=
          (mem_changedPositions w h 0 prev curr pc pr).mp hp
        exact hwf pc pr hpw hph)
      rfl (Or.inl rfl)
    have h1 := congrFun (congrFun hrt.1 col) row
    rw [h1, emitLoop_buf]
    by_cases hmem : (col, row) ∈ changedPositions w h 0 prev curr
    · rw [if_pos hmem]
    · rw [if_neg hmem]
      exact hsame col row hc hr hmem

/-- Witness for C2's round trip on a concrete 2×1 frame pair. -/
theorem render_roundtrip_exact_witness :
    (applyToks ⟨prevBlank, 0, 0, defaultStyle⟩
        (renderDifferential 2 1 0 false true prevBlank currAB).1).grid 0 0 =
      currAB 0 0 :=
  render_roundtrip_exact 2 1 true prevBlank currAB
    (fun col row _ _ => by
      by_cases hcol : col = 0 <;> simp [currAB, hcol] <;> rfl)
    0 0 (by norm_num) (by norm_num)

/-- C2 (as stated, refuted): at the renderer's default threshold 5, a
pure glyph change (`A` → `B`, identical default styles) scores 0, is
classified unchanged, and nothing is emitted — so applying the
generated stream to the previous frame does not reproduce the current
frame. -/
theorem roundtrip_fails_at_default_threshold :
    (renderDifferential 1 1 5 false true prevConstA currConstB).1 = [] ∧
    (applyToks ⟨prevConstA, 0, 0, defaultStyle⟩
        (renderDifferential 1 1 5 false true prevConstA currConstB).1).grid
        0 0 ≠
      currConstB 0 0 := by
  have hcd : cellsDifferent 5 (prevConstA 0 0) (currConstB 0 0) = false := by
    show cellsDifferent 5 cellA cellB = false
    rw [cellsDifferent, if_neg (by norm_num)]
    apply decide_eq_false
    rw [visual_difference_cellA_cellB]
    intro hlt
    norm_num at hlt
  have hch : changedPositions 1 1 5 prevConstA currConstB = [] := by
    simp [changedPositions, List.range_succ, hcd]
  have hdef : renderDifferential 1 1 5 false true prevConstA currConstB =
      (if changedPositions 1 1 5 prevConstA currConstB = [] then
        ([], 0, (⟨0, 0, none, prevConstA⟩ : EmitState))
       else
        ((emitLoop false true currConstB ⟨0, 0, none, prevConstA⟩
            (changedPositions 1 1 5 prevConstA currConstB)).1,
         (changedPositions 1 1 5 prevConstA currConstB).length,
         (emitLoop false true currConstB ⟨0, 0, none, prevConstA⟩
            (changedPositions 1 1 5 prevConstA currConstB)).2)) := rfl
  rw [hdef, if_pos hch]
  exact ⟨rfl, by decide⟩
